import Mathlib

/-!
Verification of the dodgeball prototype (src/main.rs).

The repository's original logic is two per-frame systems plus a spawn
routine:

* player_control: folds the pressed input actions into a movement vector,
  applies a jump impulse when grounded, and writes the lateral velocity as
  the normalized movement vector scaled by 10, keeping the vertical (z)
  velocity component;
* character_state: a two-state automaton (Grounded / InAir) driven by
  collision Started/Stopped events against the Ground entity;
* spawn_character: the keyboard input map.

Floating point is modelled by exact arithmetic. Every number produced by
player_control lives in the field ℚ adjoin √2 (movement components are in
{-1, 0, 1}, so squared lengths are 0, 1 or 2), represented below by the
type QSqrt2. Its rational coefficients use ExactRat, a normalized
fraction type whose operations are structurally recursive, so that the
kernel can evaluate every concrete instance by decide (the arithmetic of
the built-in Rat is defined by well-founded recursion and does not reduce
in the kernel).
-/

namespace Dodgeball

/-- Fuel-based gcd: gcdFuel fuel m n computes gcd m n by the Euclidean
algorithm, structurally recursive on the fuel. Whenever fuel > m the fuel
is never exhausted (the second argument strictly decreases below the
fuel), so the junk branch is unreachable from ngcd. -/
def gcdFuel : Nat → Nat → Nat → Nat
  | _, 0, n => n
  | 0, m+1, _ => m + 1
  | fuel+1, m+1, n => gcdFuel fuel (n % (m + 1)) (m + 1)

/-- Kernel-computable gcd. -/
def ngcd (m n : Nat) : Nat := gcdFuel (m + 1) m n

/-- Bounded integer square root by downward linear search, structurally
recursive: the largest r ≤ bound with r * r ≤ n. -/
def isqrtAux : Nat → Nat → Nat
  | 0, _ => 0
  | r+1, n => if (r + 1) * (r + 1) ≤ n then r + 1 else isqrtAux r n

/-- Kernel-computable integer square root (only used to recognize perfect
squares, where the bound n is always sufficient). -/
def isqrt (n : Nat) : Nat := isqrtAux n n

/-- A rational number as a normalized fraction num / den (den positive,
gcd 1), with structurally recursive arithmetic so the kernel evaluates it.
All operations return normalized values, so structural equality of the
values built below coincides with equality of rationals. -/
structure ExactRat where
  num : Int
  den : Nat
deriving DecidableEq

/-- Build the normalized fraction n / d. -/
def ExactRat.mk' (n : Int) (d : Nat) : ExactRat :=
  if d = 0 then ⟨0, 1⟩
  else
    let g := ngcd n.natAbs d
    ⟨n / (g : Int), d / g⟩

instance : OfNat ExactRat n := ⟨⟨(n : Int), 1⟩⟩

def ExactRat.add (x y : ExactRat) : ExactRat :=
  mk' (x.num * (y.den : Int) + y.num * (x.den : Int)) (x.den * y.den)

def ExactRat.neg (x : ExactRat) : ExactRat := ⟨-x.num, x.den⟩

def ExactRat.mul (x y : ExactRat) : ExactRat :=
  mk' (x.num * y.num) (x.den * y.den)

def ExactRat.inv (x : ExactRat) : ExactRat :=
  if x.num < 0 then ⟨-(x.den : Int), x.num.natAbs⟩
  else if x.num = 0 then ⟨0, 1⟩
  else ⟨(x.den : Int), x.num.natAbs⟩

instance : Add ExactRat := ⟨ExactRat.add⟩

instance : Neg ExactRat := ⟨ExactRat.neg⟩

instance : Sub ExactRat := ⟨fun x y => x + -y⟩

instance : Mul ExactRat := ⟨ExactRat.mul⟩

instance : Inv ExactRat := ⟨ExactRat.inv⟩

instance : Div ExactRat := ⟨fun x y => x * y⁻¹⟩

/-- The field ℚ adjoin √2: a value a + b·√2 represented by the pair (a, b).
Since √2 is irrational the representation is unique, so structural equality
on normalized coefficients is field equality. -/
structure QSqrt2 where
  a : ExactRat
  b : ExactRat
deriving DecidableEq

instance : OfNat QSqrt2 n := ⟨⟨OfNat.ofNat n, 0⟩⟩

instance : Add QSqrt2 := ⟨fun x y => ⟨x.a + y.a, x.b + y.b⟩⟩

instance : Neg QSqrt2 := ⟨fun x => ⟨-x.a, -x.b⟩⟩

instance : Sub QSqrt2 := ⟨fun x y => x + -y⟩

instance : Mul QSqrt2 :=
  ⟨fun x y => ⟨x.a * y.a + 2 * x.b * y.b, x.a * y.b + x.b * y.a⟩⟩

instance : Inv QSqrt2 :=
  ⟨fun x =>
    ⟨x.a / (x.a * x.a - 2 * x.b * x.b), -x.b / (x.a * x.a - 2 * x.b * x.b)⟩⟩

instance : Div QSqrt2 := ⟨fun x y => x * y⁻¹⟩

/-- Embedding of the rationals into QSqrt2. -/
def q2 (q : ExactRat) : QSqrt2 := ⟨q, 0⟩

/-- Rational square root: some r with r * r = q when the normalized
fraction q is a square of a rational (exactly when its numerator and
denominator are perfect squares), none otherwise. -/
def ratSqrt? (q : ExactRat) : Option ExactRat :=
  if q.num < 0 then none
  else
    let sn := isqrt q.num.toNat
    let sd := isqrt q.den
    if sn * sn = q.num.toNat ∧ sd * sd = q.den then some ⟨(sn : Int), sd⟩
    else none

/-- Square root of a nonnegative rational inside QSqrt2, defined for every
rational of the form r·r (giving r) or 2·r·r (giving r·√2). This covers
every squared length reachable in player_control (0, 1 and 2); other
inputs map to the junk value 0 and are never reached. -/
def sqrtQ2 (q : ExactRat) : QSqrt2 :=
  match ratSqrt? q with
  | some r => ⟨r, 0⟩
  | none =>
    match ratSqrt? (q / 2) with
    | some r => ⟨0, r⟩
    | none => 0

/-- glam Vec2, the movement accumulator of player_control. Its components
are only ever 0, -1.0 or 1.0, all exactly representable. -/
structure Vec2 where
  x : ExactRat
  y : ExactRat
deriving DecidableEq

/-- glam Vec3 (rapier linear velocity / external impulse), over QSqrt2
because normalized diagonal movement introduces √2. -/
structure Vec3 where
  x : QSqrt2
  y : QSqrt2
  z : QSqrt2
deriving DecidableEq

/-- Exact model of the expression movement.normalize_or_zero() * 10.0 from
player_control: glam's normalize_or_zero divides a vector of positive
length by its length and maps the zero vector to zero (its reciprocal
length is not finite there), then the result is scaled by 10. -/
def normalizeOrZeroTimes10 (m : Vec2) : QSqrt2 × QSqrt2 :=
  let lenSq : ExactRat := m.x * m.x + m.y * m.y
  if lenSq = 0 then (0, 0)
  else (q2 m.x / sqrtQ2 lenSq * 10, q2 m.y / sqrtQ2 lenSq * 10)

/-- The Actionlike enum of src/main.rs, variants in declaration order. -/
inductive Action
  | MoveLeft
  | MoveRight
  | MoveAway
  | MoveTowards
  | Jump
deriving DecidableEq

/-- The CharacterState component of src/main.rs. -/
inductive CharacterState
  | Grounded
  | InAir
deriving DecidableEq

/-- The player components read and written by player_control: Velocity
(linvel), ExternalImpulse (impulse) and CharacterState. -/
structure PlayerState where
  linvel : Vec3
  impulse : Vec3
  state : CharacterState
deriving DecidableEq

/-- Loop state of the for-loop in player_control: the movement accumulator
plus the two mutably borrowed components the loop can write. -/
structure ControlIter where
  movement : Vec2
  impulse : Vec3
  state : CharacterState
deriving DecidableEq

/-- One iteration of the for-loop of player_control (src/main.rs lines
200-213): movement components are assigned (not accumulated), and Jump
applies the impulse (0, 0, 0.7) and switches to InAir only when the
character state is Grounded. -/
def controlStep (s : ControlIter) (action : Action) : ControlIter :=
  match action with
  | Action.MoveLeft => { s with movement := { s.movement with y := -1 } }
  | Action.MoveRight => { s with movement := { s.movement with y := 1 } }
  | Action.MoveAway => { s with movement := { s.movement with x := -1 } }
  | Action.MoveTowards => { s with movement := { s.movement with x := 1 } }
  | Action.Jump =>
    if s.state = CharacterState.Grounded then
      { s with impulse := ⟨0, 0, q2 (ExactRat.mk' 7 10)⟩,
               state := CharacterState.InAir }
    else s

/-- The player_control system of src/main.rs (lines 187-215): fold the
pressed actions over the loop body starting from the zero movement vector,
then overwrite the lateral velocity with the normalized movement scaled by
10, extended with the previous vertical velocity component. -/
def player_control (pressed : List Action) (p : PlayerState) : PlayerState :=
  let fin := pressed.foldl controlStep ⟨⟨0, 0⟩, p.impulse, p.state⟩
  let v := normalizeOrZeroTimes10 fin.movement
  { linvel := ⟨v.1, v.2, p.linvel.z⟩, impulse := fin.impulse, state := fin.state }

/-- Which of the five actions are currently pressed. -/
structure PressedActions where
  moveLeft : Bool
  moveRight : Bool
  moveAway : Bool
  moveTowards : Bool
  jump : Bool
deriving DecidableEq

/-- Model of leafwing-input-manager ActionState::get_pressed as called by
player_control: the pressed actions, listed in Actionlike variant
declaration order (MoveLeft, MoveRight, MoveAway, MoveTowards, Jump). -/
def get_pressed (p : PressedActions) : List Action :=
  (if p.moveLeft then [Action.MoveLeft] else []) ++
  (if p.moveRight then [Action.MoveRight] else []) ++
  (if p.moveAway then [Action.MoveAway] else []) ++
  (if p.moveTowards then [Action.MoveTowards] else []) ++
  (if p.jump then [Action.Jump] else [])

/-- The jump impulse constant Vec3::new(0.0, 0.0, 0.7) of src/main.rs. -/
def jumpImpulse : Vec3 := ⟨0, 0, q2 (ExactRat.mk' 7 10)⟩

/-- Did any of the four movement actions get pressed. -/
def movementPressed (pr : PressedActions) : Bool :=
  pr.moveLeft || pr.moveRight || pr.moveAway || pr.moveTowards

/-- Squared magnitude of the lateral (x, y) part of a velocity. -/
def latMagSq (v : Vec3) : QSqrt2 := v.x * v.x + v.y * v.y

/-- A player at rest on the ground, used as concrete input. -/
def restState : PlayerState := ⟨⟨0, 0, 0⟩, ⟨0, 0, 0⟩, CharacterState.Grounded⟩

/-- An airborne player, used as concrete input. -/
def airState : PlayerState := ⟨⟨0, 0, 0⟩, ⟨0, 0, 0⟩, CharacterState.InAir⟩

/-- First-match lookup of an entity's CharacterState component, mirroring
the ECS query characters.get_mut (entities are modelled as naturals; an
ECS stores at most one component per entity). -/
def findChar : List (Nat × CharacterState) → Nat → Option CharacterState
  | [], _ => none
  | (k, v) :: rest, e => if k = e then some v else findChar rest e

/-- Writing through the mutable borrow returned by characters.get_mut:
replace the state stored for entity e, leaving other entities alone. -/
def writeChar : List (Nat × CharacterState) → Nat → CharacterState → List (Nat × CharacterState)
  | [], _, _ => []
  | (k, v) :: rest, e, s =>
    if k = e then (k, s) :: writeChar rest e s else (k, v) :: writeChar rest e s

/-- The ECS world slice read and written by character_state: the
CharacterState components and the set of entities carrying the Ground
marker component. -/
structure World where
  characters : List (Nat × CharacterState)
  grounds : List Nat
deriving DecidableEq

/-- characters.get_mut(e) succeeds exactly on entities with a
CharacterState component. -/
def lookupChar (w : World) (e : Nat) : Option CharacterState :=
  findChar w.characters e

/-- Whether the characters query contains the entity. -/
def isCharacter (w : World) (e : Nat) : Bool :=
  (findChar w.characters e).isSome

/-- ground.contains(e): whether the entity has the Ground component. -/
def isGround (w : World) (e : Nat) : Bool :=
  w.grounds.contains e

/-- Set the CharacterState component of entity e. -/
def setChar (w : World) (e : Nat) (s : CharacterState) : World :=
  { w with characters := writeChar w.characters e s }

/-- rapier CollisionEvent with the flags field dropped (never read by
character_state). -/
inductive CollisionEvent
  | Started (e1 e2 : Nat)
  | Stopped (e1 e2 : Nat)
deriving DecidableEq

/-- The two entities of a collision event. -/
def participants : CollisionEvent → List Nat
  | CollisionEvent.Started e1 e2 => [e1, e2]
  | CollisionEvent.Stopped e1 e2 => [e1, e2]

/-- One arm of the event loop of character_state (src/main.rs lines
229-266). If the first entity is a character, the second must be ground,
else the event is skipped (the symmetric pairing is not retried); else if
the second entity is a character, the first must be ground, else the event
is skipped; else the event is skipped. A Started event writes Grounded, a
Stopped event writes InAir. -/
def processEvent (w : World) (event : CollisionEvent) : World :=
  match event with
  | CollisionEvent.Started e1 e2 =>
    if isCharacter w e1 then
      if isGround w e2 then setChar w e1 CharacterState.Grounded else w
    else if isCharacter w e2 then
      if isGround w e1 then setChar w e2 CharacterState.Grounded else w
    else w
  | CollisionEvent.Stopped e1 e2 =>
    if isCharacter w e1 then
      if isGround w e2 then setChar w e1 CharacterState.InAir else w
    else if isCharacter w e2 then
      if isGround w e1 then setChar w e2 CharacterState.InAir else w
    else w

/-- The character_state system of src/main.rs (lines 223-268): the frame's
collision events are processed left to right. -/
def character_state (w : World) (events : List CollisionEvent) : World :=
  events.foldl processEvent w

/-- A world with one character (entity 1, airborne) and one ground
(entity 2), used as concrete input. -/
def w0 : World := ⟨[(1, CharacterState.InAir)], [2]⟩

/-- The bevy KeyCode variants used by spawn_character. -/
inductive KeyCode
  | A
  | E
  | O
  | Comma
  | Space
deriving DecidableEq

/-- Letter keys among the keycodes above (bevy KeyCode has dedicated
variants for the letters A to Z; Comma and Space are not among them). -/
def KeyCode.isLetter : KeyCode → Bool
  | KeyCode.A => true
  | KeyCode.E => true
  | KeyCode.O => true
  | KeyCode.Comma => false
  | KeyCode.Space => false

/-- The InputMap of spawn_character (src/main.rs lines 140-146), as the
list of (key, action) pairs passed to InputMap::new. -/
def input_map : List (KeyCode × Action) :=
  [(KeyCode.A, Action.MoveLeft),
   (KeyCode.E, Action.MoveRight),
   (KeyCode.O, Action.MoveTowards),
   (KeyCode.Comma, Action.MoveAway),
   (KeyCode.Space, Action.Jump)]

/-- The key bound to an action by the input map. -/
def keyFor (a : Action) : Option KeyCode :=
  (input_map.find? (fun ka => decide (ka.2 = a))).map Prod.fst

/-- Event ev pairs entity c with a ground entity of w: c is one
participant and the other participant carries the Ground component. -/
def pairsWithGround (w : World) (c : Nat) : CollisionEvent → Bool
  | CollisionEvent.Started e1 e2 =>
    (decide (c = e1) && isGround w e2) || (decide (c = e2) && isGround w e1)
  | CollisionEvent.Stopped e1 e2 =>
    (decide (c = e1) && isGround w e2) || (decide (c = e2) && isGround w e1)

theorem findChar_writeChar_self (l : List (Nat × CharacterState)) (e : Nat)
    (s : CharacterState) :
    findChar (writeChar l e s) e = (findChar l e).map (fun _ => s) := by
  induction l with
  | nil => rfl
  | cons p rest ih =>
    rcases p with ⟨k, v⟩
    by_cases h : k = e <;> simp [findChar, writeChar, h, ih]

theorem findChar_writeChar_of_ne (l : List (Nat × CharacterState)) (e c : Nat)
    (s : CharacterState) (h : c ≠ e) :
    findChar (writeChar l e s) c = findChar l c := by
  induction l with
  | nil => rfl
  | cons p rest ih =>
    rcases p with ⟨k, v⟩
    by_cases hk : k = e
    · subst hk
      simp [findChar, writeChar, ih, Ne.symm h]
    · simp [findChar, writeChar, hk, ih]

theorem lookupChar_setChar_self (w : World) (e : Nat) (s : CharacterState)
    (h : isCharacter w e = true) :
    lookupChar (setChar w e s) e = some s := by
  unfold isCharacter at h
  unfold lookupChar setChar
  rw [findChar_writeChar_self]
  rcases Option.isSome_iff_exists.mp h with ⟨v, hv⟩
  simp [hv]

theorem lookupChar_setChar_of_ne (w : World) (e c : Nat) (s : CharacterState)
    (h : c ≠ e) :
    lookupChar (setChar w e s) c = lookupChar w c :=
  findChar_writeChar_of_ne w.characters e c s h

theorem isCharacter_setChar (w : World) (e : Nat) (s : CharacterState) (c : Nat) :
    isCharacter (setChar w e s) c = isCharacter w c := by
  unfold isCharacter setChar
  by_cases h : c = e
  · subst h
    rw [findChar_writeChar_self]
    cases findChar w.characters c <;> rfl
  · rw [findChar_writeChar_of_ne _ _ _ _ h]

theorem grounds_setChar (w : World) (e : Nat) (s : CharacterState) :
    (setChar w e s).grounds = w.grounds := rfl

theorem grounds_processEvent (w : World) (ev : CollisionEvent) :
    (processEvent w ev).grounds = w.grounds := by
  cases ev <;> simp only [processEvent] <;> split_ifs <;> rfl

theorem isGround_processEvent (w : World) (ev : CollisionEvent) (c : Nat) :
    isGround (processEvent w ev) c = isGround w c := by
  unfold isGround
  rw [grounds_processEvent]

theorem isCharacter_processEvent (w : World) (ev : CollisionEvent) (c : Nat) :
    isCharacter (processEvent w ev) c = isCharacter w c := by
  cases ev <;> simp only [processEvent] <;> split_ifs <;>
    first
    | rfl
    | apply isCharacter_setChar

theorem pairsWithGround_processEvent (w : World) (evx : CollisionEvent) (c : Nat)
    (ev : CollisionEvent) :
    pairsWithGround (processEvent w evx) c ev = pairsWithGround w c ev := by
  cases ev <;> simp only [pairsWithGround, isGround_processEvent]

theorem lookupChar_processEvent_of_not_mem (w : World) (ev : CollisionEvent) (c : Nat)
    (h : c ∉ participants ev) :
    lookupChar (processEvent w ev) c = lookupChar w c := by
  cases ev with
  | Started e1 e2 =>
    simp only [participants, List.mem_cons, List.not_mem_nil, or_false] at h
    push_neg at h
    simp only [processEvent]
    split_ifs <;>
      first
      | rfl
      | exact lookupChar_setChar_of_ne _ _ _ _ h.1
      | exact lookupChar_setChar_of_ne _ _ _ _ h.2
  | Stopped e1 e2 =>
    simp only [participants, List.mem_cons, List.not_mem_nil, or_false] at h
    push_neg at h
    simp only [processEvent]
    split_ifs <;>
      first
      | rfl
      | exact lookupChar_setChar_of_ne _ _ _ _ h.1
      | exact lookupChar_setChar_of_ne _ _ _ _ h.2

theorem processEvent_started_sets_grounded (w : World) (c g : Nat)
    (hc : isCharacter w c = true) (hg : isGround w g = true)
    (hgchar : isCharacter w g = false) :
    lookupChar (processEvent w (CollisionEvent.Started c g)) c
        = some CharacterState.Grounded ∧
    lookupChar (processEvent w (CollisionEvent.Started g c)) c
        = some CharacterState.Grounded := by
  constructor
  · simp only [processEvent, hc, hg, if_true]
    exact lookupChar_setChar_self _ _ _ hc
  · simp only [processEvent, hgchar, hc, hg, if_true, Bool.false_eq_true, if_false]
    exact lookupChar_setChar_self _ _ _ hc

theorem processEvent_stopped_sets_inair (w : World) (c g : Nat)
    (hc : isCharacter w c = true) (hg : isGround w g = true)
    (hgchar : isCharacter w g = false) :
    lookupChar (processEvent w (CollisionEvent.Stopped c g)) c
        = some CharacterState.InAir ∧
    lookupChar (processEvent w (CollisionEvent.Stopped g c)) c
        = some CharacterState.InAir := by
  constructor
  · simp only [processEvent, hc, hg, if_true]
    exact lookupChar_setChar_self _ _ _ hc
  · simp only [processEvent, hgchar, hc, hg, if_true, Bool.false_eq_true, if_false]
    exact lookupChar_setChar_self _ _ _ hc

theorem processEvent_skips_non_pairs (w : World) (e1 e2 : Nat)
    (h : ¬((isCharacter w e1 = true ∧ isGround w e2 = true) ∨
           (isCharacter w e2 = true ∧ isGround w e1 = true))) :
    processEvent w (CollisionEvent.Started e1 e2) = w ∧
    processEvent w (CollisionEvent.Stopped e1 e2) = w := by
  push_neg at h
  constructor <;>
    · simp only [processEvent]
      split_ifs with h1 h2 h3 h4
      · exact absurd h2 (h.1 h1)
      · rfl
      · exact absurd h4 (h.2 h3)
      · rfl
      · rfl

theorem lookupChar_processEvent_ground_free (w : World) (c e1 e2 : Nat)
    (h1 : c = e1 → isGround w e2 = false)
    (h2 : c = e2 → isGround w e1 = false) :
    lookupChar (processEvent w (CollisionEvent.Started e1 e2)) c = lookupChar w c ∧
    lookupChar (processEvent w (CollisionEvent.Stopped e1 e2)) c = lookupChar w c := by
  constructor <;>
  · simp only [processEvent]
    split_ifs with ha hb hc' hd
    · refine lookupChar_setChar_of_ne _ _ _ _ (fun hce => ?_)
      have hf := h1 hce
      rw [hf] at hb
      exact Bool.noConfusion hb
    · rfl
    · refine lookupChar_setChar_of_ne _ _ _ _ (fun hce => ?_)
      have hf := h2 hce
      rw [hf] at hd
      exact Bool.noConfusion hd
    · rfl
    · rfl

theorem character_state_cons (w : World) (ev : CollisionEvent)
    (rest : List CollisionEvent) :
    character_state w (ev :: rest) = character_state (processEvent w ev) rest := rfl

theorem character_state_append (w : World) (l1 l2 : List CollisionEvent) :
    character_state w (l1 ++ l2) = character_state (character_state w l1) l2 := by
  simp [character_state, List.foldl_append]

theorem isCharacter_character_state (w : World) (l : List CollisionEvent) (c : Nat) :
    isCharacter (character_state w l) c = isCharacter w c := by
  induction l generalizing w with
  | nil => rfl
  | cons ev rest ih => rw [character_state_cons, ih, isCharacter_processEvent]

theorem isGround_character_state (w : World) (l : List CollisionEvent) (c : Nat) :
    isGround (character_state w l) c = isGround w c := by
  induction l generalizing w with
  | nil => rfl
  | cons ev rest ih => rw [character_state_cons, ih, isGround_processEvent]

theorem pairsWithGround_character_state (w : World) (l : List CollisionEvent)
    (c : Nat) (ev : CollisionEvent) :
    pairsWithGround (character_state w l) c ev = pairsWithGround w c ev := by
  induction l generalizing w with
  | nil => rfl
  | cons e rest ih => rw [character_state_cons, ih, pairsWithGround_processEvent]

theorem pairsWithGround_false_elim (w : World) (c e1 e2 : Nat)
    (h : (decide (c = e1) && isGround w e2 || (decide (c = e2) && isGround w e1))
          = false) :
    (c = e1 → isGround w e2 = false) ∧ (c = e2 → isGround w e1 = false) := by
  rw [Bool.or_eq_false_iff, Bool.and_eq_false_iff, Bool.and_eq_false_iff] at h
  constructor
  · intro hce
    rcases h.1 with hf | hf
    · rw [decide_eq_false_iff_not] at hf
      exact absurd hce hf
    · exact hf
  · intro hce
    rcases h.2 with hf | hf
    · rw [decide_eq_false_iff_not] at hf
      exact absurd hce hf
    · exact hf

theorem lookupChar_character_state_ground_free (w : World)
    (l : List CollisionEvent) (c : Nat)
    (h : ∀ ev ∈ l, pairsWithGround w c ev = false) :
    lookupChar (character_state w l) c = lookupChar w c := by
  induction l generalizing w with
  | nil => rfl
  | cons ev rest ih =>
    have hev := h ev (List.mem_cons_self ev rest)
    have hrest : ∀ e ∈ rest, pairsWithGround (processEvent w ev) c e = false := by
      intro e he
      rw [pairsWithGround_processEvent]
      exact h e (List.mem_cons_of_mem _ he)
    rw [character_state_cons, ih _ hrest]
    cases ev with
    | Started e1 e2 =>
      have hp := pairsWithGround_false_elim w c e1 e2 hev
      exact (lookupChar_processEvent_ground_free w c e1 e2 hp.1 hp.2).1
    | Stopped e1 e2 =>
      have hp := pairsWithGround_false_elim w c e1 e2 hev
      exact (lookupChar_processEvent_ground_free w c e1 e2 hp.1 hp.2).2

/-- C3: a collision-start event between the character entity c and the
ground entity g sets the character's status to Grounded, whether the
character is reported as the first or the second participant. The
hypotheses state the roles of the pair: c carries a CharacterState
component, g carries the Ground component and g itself is not a character
(in the game the Ground entity has no CharacterState component). -/
theorem C3_collision_start_grounds_character (w : World) (c g : Nat)
    (hc : isCharacter w c = true) (hg : isGround w g = true)
    (hgchar : isCharacter w g = false) :
    lookupChar (processEvent w (CollisionEvent.Started c g)) c
        = some CharacterState.Grounded ∧
    lookupChar (processEvent w (CollisionEvent.Started g c)) c
        = some CharacterState.Grounded :=
  processEvent_started_sets_grounded w c g hc hg hgchar

/-- Witness for C3 on the concrete world w0 (character 1 airborne,
ground 2), with the character first and second in the event. -/
theorem C3_witness :
    lookupChar (processEvent w0 (CollisionEvent.Started 1 2)) 1
        = some CharacterState.Grounded ∧
    lookupChar (processEvent w0 (CollisionEvent.Started 2 1)) 1
        = some CharacterState.Grounded :=
  ⟨(C3_collision_start_grounds_character w0 1 2 (by decide) (by decide) (by decide)).1,
   (C3_collision_start_grounds_character w0 1 2 (by decide) (by decide) (by decide)).2⟩

/-- C4: a collision-stop event between the character entity c and the
ground entity g sets the character's status to InAir, in either
participant order, under the same role hypotheses as C3. -/
theorem C4_collision_stop_airborne_character (w : World) (c g : Nat)
    (hc : isCharacter w c = true) (hg : isGround w g = true)
    (hgchar : isCharacter w g = false) :
    lookupChar (processEvent w (CollisionEvent.Stopped c g)) c
        = some CharacterState.InAir ∧
    lookupChar (processEvent w (CollisionEvent.Stopped g c)) c
        = some CharacterState.InAir :=
  processEvent_stopped_sets_inair w c g hc hg hgchar

/-- Witness for C4 on the concrete world w0. -/
theorem C4_witness :
    lookupChar (processEvent w0 (CollisionEvent.Stopped 1 2)) 1
        = some CharacterState.InAir ∧
    lookupChar (processEvent w0 (CollisionEvent.Stopped 2 1)) 1
        = some CharacterState.InAir :=
  ⟨(C4_collision_stop_airborne_character w0 1 2 (by decide) (by decide) (by decide)).1,
   (C4_collision_stop_airborne_character w0 1 2 (by decide) (by decide) (by decide)).2⟩

/-- C5: a collision event (start or stop) whose participant pair is not
one character plus one ground entity (in either order) leaves the status
of every character unchanged. -/
theorem C5_non_ground_pair_leaves_status (w : World) (e1 e2 : Nat)
    (h : ¬((isCharacter w e1 = true ∧ isGround w e2 = true) ∨
           (isCharacter w e2 = true ∧ isGround w e1 = true))) :
    (∀ e, lookupChar (processEvent w (CollisionEvent.Started e1 e2)) e = lookupChar w e) ∧
    (∀ e, lookupChar (processEvent w (CollisionEvent.Stopped e1 e2)) e = lookupChar w e) := by
  have hp := processEvent_skips_non_pairs w e1 e2 h
  exact ⟨fun e => by rw [hp.1], fun e => by rw [hp.2]⟩

/-- Witness for C5 on w0: a start and a stop event between the character
and the unrelated entity 3 leave the character's status unchanged. -/
theorem C5_witness :
    lookupChar (processEvent w0 (CollisionEvent.Started 1 3)) 1 = lookupChar w0 1 ∧
    lookupChar (processEvent w0 (CollisionEvent.Stopped 1 3)) 1 = lookupChar w0 1 :=
  ⟨(C5_non_ground_pair_leaves_status w0 1 3 (by decide)).1 1,
   (C5_non_ground_pair_leaves_status w0 1 3 (by decide)).2 1⟩

/-- C6: when an event has a participant that is neither a character nor a
ground entity, both entity lookups for the event fail, so the event is
skipped: the world (hence every character status) is unchanged, no error
value exists (processEvent is total), and the remaining events are
processed as if the event were absent. -/
theorem C6_lookup_miss_silently_skipped (w : World) (e1 e2 : Nat)
    (rest : List CollisionEvent)
    (h : (isCharacter w e1 = false ∧ isGround w e1 = false) ∨
         (isCharacter w e2 = false ∧ isGround w e2 = false)) :
    (processEvent w (CollisionEvent.Started e1 e2) = w ∧
     processEvent w (CollisionEvent.Stopped e1 e2) = w) ∧
    (character_state w (CollisionEvent.Started e1 e2 :: rest) = character_state w rest ∧
     character_state w (CollisionEvent.Stopped e1 e2 :: rest) = character_state w rest) := by
  have hp : ¬((isCharacter w e1 = true ∧ isGround w e2 = true) ∨
              (isCharacter w e2 = true ∧ isGround w e1 = true)) := by
    rcases h with ⟨h1, h2⟩ | ⟨h1, h2⟩ <;> rintro (⟨ha, hb⟩ | ⟨ha, hb⟩) <;> simp_all
  have hs := processEvent_skips_non_pairs w e1 e2 hp
  refine ⟨hs, ?_, ?_⟩
  · rw [character_state_cons, hs.1]
  · rw [character_state_cons, hs.2]

/-- Witness for C6 on w0: entity 5 is neither character nor ground; the
event is ignored and processing of the following event proceeds. -/
theorem C6_witness :
    processEvent w0 (CollisionEvent.Started 1 5) = w0 ∧
    character_state w0 (CollisionEvent.Stopped 1 5 :: [CollisionEvent.Started 1 2]) =
      character_state w0 [CollisionEvent.Started 1 2] :=
  ⟨(C6_lookup_miss_silently_skipped w0 1 5 [] (Or.inr ⟨by decide, by decide⟩)).1.1,
   (C6_lookup_miss_silently_skipped w0 1 5 [CollisionEvent.Started 1 2]
      (Or.inr ⟨by decide, by decide⟩)).2.2⟩

/-- C10: character_state is the left fold of processEvent over the frame's
events, so the events are processed in order and the final status of the
character c is decided by the last event pairing c with the ground g — a
start event leaves it Grounded, a stop event leaves it InAir, in either
participant order. l1 is the list of events before that last pairing
event; the hypothesis on the suffix l2 states that no later event pairs c
with a ground entity (so the chosen event is indeed the last pairing one). -/
theorem C10_last_ground_event_wins (w : World) (l1 l2 : List CollisionEvent)
    (c g : Nat)
    (hc : isCharacter w c = true) (hg : isGround w g = true)
    (hgchar : isCharacter w g = false)
    (h2 : ∀ ev ∈ l2, pairsWithGround w c ev = false) :
    (lookupChar (character_state w (l1 ++ CollisionEvent.Started c g :: l2)) c
        = some CharacterState.Grounded ∧
     lookupChar (character_state w (l1 ++ CollisionEvent.Started g c :: l2)) c
        = some CharacterState.Grounded) ∧
    (lookupChar (character_state w (l1 ++ CollisionEvent.Stopped c g :: l2)) c
        = some CharacterState.InAir ∧
     lookupChar (character_state w (l1 ++ CollisionEvent.Stopped g c :: l2)) c
        = some CharacterState.InAir) := by
  have hc1 : isCharacter (character_state w l1) c = true := by
    rw [isCharacter_character_state]; exact hc
  have hg1 : isGround (character_state w l1) g = true := by
    rw [isGround_character_state]; exact hg
  have hgchar1 : isCharacter (character_state w l1) g = false := by
    rw [isCharacter_character_state]; exact hgchar
  have h2' : ∀ ev' : CollisionEvent, ∀ e ∈ l2,
      pairsWithGround (processEvent (character_state w l1) ev') c e = false := by
    intro ev' e he
    rw [pairsWithGround_processEvent, pairsWithGround_character_state]
    exact h2 e he
  refine ⟨⟨?_, ?_⟩, ?_, ?_⟩ <;>
    rw [character_state_append, character_state_cons,
        lookupChar_character_state_ground_free _ _ _ (h2' _)]
  · exact (processEvent_started_sets_grounded _ c g hc1 hg1 hgchar1).1
  · exact (processEvent_started_sets_grounded _ c g hc1 hg1 hgchar1).2
  · exact (processEvent_stopped_sets_inair _ c g hc1 hg1 hgchar1).1
  · exact (processEvent_stopped_sets_inair _ c g hc1 hg1 hgchar1).2

/-- Witness for C10: from w0, a start event followed by a stop event for
the same character/ground pair ends with the character InAir. -/
theorem C10_witness :
    lookupChar (character_state w0
        ([CollisionEvent.Started 1 2] ++ CollisionEvent.Stopped 1 2 :: [])) 1
      = some CharacterState.InAir :=
  (C10_last_ground_event_wins w0 [CollisionEvent.Started 1 2] [] 1 2
     (by decide) (by decide) (by decide)
     (fun ev hev => absurd hev (List.not_mem_nil ev))).2.1

theorem normTimes10_0_1 : normalizeOrZeroTimes10 ⟨0, 1⟩ = (0, 10) := by decide

/-- C8: player_control only overwrites the two lateral velocity
components; the vertical (z) component of the linear velocity is copied
from its previous value, whatever actions are pressed. -/
theorem C8_vertical_velocity_preserved (pressed : List Action) (p : PlayerState) :
    (player_control pressed p).linvel.z = p.linvel.z := rfl

/-- C1 as stated is false at a concrete input: with move-left and
move-right both pressed and no other movement action pressed, the net
lateral velocity is (0, 10), which is not the zero vector. The loop
assigns movement.y (it does not accumulate), so the MoveRight iteration
overwrites the MoveLeft one and nothing cancels. -/
theorem C1_counterexample :
    (player_control (get_pressed ⟨true, true, false, false, false⟩) restState).linvel.y
        = 10 ∧
    (10 : QSqrt2) ≠ 0 := by decide

/-- C1 amended: pressing the opposite movement keys move-left and
move-right simultaneously (and no other movement action) yields the
lateral velocity (0, 10) — magnitude 10 in the MoveRight direction, since
the loop assigns movement.y per pressed action and MoveRight is processed
after MoveLeft — rather than the zero vector. This holds for any jump
flag and any prior state, and the vertical component is preserved. -/
theorem C1_opposite_keys_move_right (j : Bool) (p : PlayerState) :
    (player_control (get_pressed ⟨true, true, false, false, j⟩) p).linvel
        = ⟨0, 10, p.linvel.z⟩ := by
  cases j <;> rcases p with ⟨v, imp, st⟩ <;> cases st <;>
    simp [player_control, get_pressed, controlStep, normTimes10_0_1]

/-- C2: the jump impulse (0, 0, 0.7) is applied exactly when Jump is
pressed and the state is Grounded, and the state then immediately becomes
InAir; otherwise — Jump not pressed, or state already InAir — both the
impulse and the state are left unchanged. -/
theorem C2_jump_gating (pr : PressedActions) (p : PlayerState) :
    ((pr.jump = true ∧ p.state = CharacterState.Grounded) →
      (player_control (get_pressed pr) p).impulse = jumpImpulse ∧
      (player_control (get_pressed pr) p).state = CharacterState.InAir) ∧
    (¬(pr.jump = true ∧ p.state = CharacterState.Grounded) →
      (player_control (get_pressed pr) p).impulse = p.impulse ∧
      (player_control (get_pressed pr) p).state = p.state) := by
  rcases pr with ⟨l, r, aw, t, j⟩
  rcases p with ⟨v, imp, st⟩
  cases l <;> cases r <;> cases aw <;> cases t <;> cases j <;> cases st <;>
    simp [player_control, get_pressed, controlStep, jumpImpulse]

/-- Witness for C2: jumping while grounded applies the impulse and leaves
the player InAir; jumping while already InAir changes nothing. -/
theorem C2_witness :
    ((player_control (get_pressed ⟨false, false, false, false, true⟩) restState).impulse
        = jumpImpulse ∧
     (player_control (get_pressed ⟨false, false, false, false, true⟩) restState).state
        = CharacterState.InAir) ∧
    ((player_control (get_pressed ⟨false, false, false, false, true⟩) airState).impulse
        = airState.impulse ∧
     (player_control (get_pressed ⟨false, false, false, false, true⟩) airState).state
        = airState.state) :=
  ⟨(C2_jump_gating ⟨false, false, false, false, true⟩ restState).1 (by decide),
   (C2_jump_gating ⟨false, false, false, false, true⟩ airState).2 (by decide)⟩

/-- C9: after player_control the squared magnitude of the lateral
velocity is exactly 100 — equivalently the magnitude is exactly 10, a
magnitude being nonnegative — whenever at least one movement action is
pressed, and the lateral velocity is exactly the zero vector when no
movement action is pressed. -/
theorem C9_lateral_speed (pr : PressedActions) (p : PlayerState) :
    (movementPressed pr = true →
      latMagSq (player_control (get_pressed pr) p).linvel = 100) ∧
    (movementPressed pr = false →
      (player_control (get_pressed pr) p).linvel.x = 0 ∧
      (player_control (get_pressed pr) p).linvel.y = 0) := by
  rcases pr with ⟨l, r, aw, t, j⟩
  rcases p with ⟨v, imp, st⟩
  cases l <;> cases r <;> cases aw <;> cases t <;> cases j <;> cases st <;>
    simp [player_control, get_pressed, controlStep, movementPressed, latMagSq] <;>
    decide

/-- Witness for C9: a single pressed movement action gives lateral speed
10; no movement action gives the zero lateral velocity. -/
theorem C9_witness :
    latMagSq (player_control (get_pressed ⟨true, false, false, false, false⟩)
        restState).linvel = 100 ∧
    (player_control (get_pressed ⟨false, false, false, false, false⟩)
        restState).linvel.x = 0 :=
  ⟨(C9_lateral_speed ⟨true, false, false, false, false⟩ restState).1 (by decide),
   ((C9_lateral_speed ⟨false, false, false, false, false⟩ restState).2 (by decide)).1⟩

/-- C7 as stated is false: the input map does not bind all four movement
actions to letter keys — move-away-from-camera is bound to the comma key. -/
theorem C7_counterexample :
    ¬(∀ ka ∈ input_map, ka.2 ≠ Action.Jump → ka.1.isLetter = true) := by decide

/-- C7 amended: the input map binds move-left, move-right and
move-toward-camera to the letter keys A, E and O respectively, binds
move-away-from-camera to the comma key (which is not a letter key), and
binds jump to the space key. -/
theorem C7_bindings :
    keyFor Action.MoveLeft = some KeyCode.A ∧
    keyFor Action.MoveRight = some KeyCode.E ∧
    keyFor Action.MoveTowards = some KeyCode.O ∧
    keyFor Action.MoveAway = some KeyCode.Comma ∧
    keyFor Action.Jump = some KeyCode.Space ∧
    KeyCode.A.isLetter = true ∧ KeyCode.E.isLetter = true ∧
    KeyCode.O.isLetter = true ∧ KeyCode.Comma.isLetter = false := by decide

end Dodgeball
